import Mathlib

/-!
# Verification of the VoxelGame chunk engine

Shallow embedding, in Lean 4, of the chunk / block / meshing / lifecycle code of
the VoxelGame repository, together with proofs about it.

The repository carries two revisions of the engine side by side:

* the older revision: `src/chunk.rs` (`ChunkGrid`, `Chunk`, `BlockGrid`, `Blocks`),
  `src/level.rs` (state machine `ChunkLoadState`, `discard_far_chunks`) and
  `src/meshing.rs` (`rebuild_chunk_mesh`, grid-based neighbour lookup);
* the newer revision: `src/chunk/mod.rs` (`Chunk`, `SerializableChunkContents`),
  `src/chunk/mesh.rs` (`build_mesh`, purely chunk-local neighbour lookup),
  `src/level/mod.rs` (`create_chunk`, `remove_far_chunks`).

Both are embedded here where they differ; functions whose bodies are identical in
the two revisions (`to_block_coord`, `to_chunk_coord`, `generate`, the serde
visitor) are embedded once.

Machine integers are modelled by `Int` / `Nat`.  All the i16/i32 arithmetic
performed by the embedded functions stays far inside the machine ranges (the
chunk size constant 32 is chosen in the source precisely so that
`x + y*32 + z*32*32 ≤ 32767` fits in an `i16`), so no wrap-around modelling is
needed; where a Rust cast could change a value (`as usize` on a negative
number, `i16::try_from` on a large index) the embedding models the exact
behaviour, see the individual definitions.

The single floating-point operation that matters to any claim is
`(raw_coordinate as f32 / 32.).floor() as i32` in `to_chunk_coord`.  For an
`i32` input this pipeline is exactly: round the integer to 24 significant bits
(IEEE-754 round-to-nearest, ties-to-even — the `as f32` cast), then divide by
32 (exact in binary floating point: it only decrements the exponent), then
floor (exact) and cast (exact in range).  `roundF32` below implements that
rounding on integers, so `to_chunk_coord` is embedded exactly.
-/

namespace VoxelGame

/-- Chunk size: `CHUNK_SIZE_*` (old revision) / `SIZE_*` (new revision), value 32. -/
def SIZE : Int := 32

/-- `CHUNK_BLOCK_COUNT` / `CONTENTS_SIZE`: `32 * 32 * 32`. -/
def CONTENTS_SIZE : Nat := 32 * 32 * 32

/-- `Z_INDEX_*`: `SIZE * SIZE`. -/
def Z_INDEX : Int := SIZE * SIZE

/-- A block value.  The old revision's `Block` is a newtype over an id string;
the new revision's `Block` wraps an `Identifier` (namespace + path).  For every
claim treated here blocks are opaque values compared by their identifier, so a
single identifier-carrying structure embeds both. -/
structure Block where
  id : String
deriving DecidableEq

/-- `Block::new`. -/
def Block.new (id : String) : Block := ⟨id⟩

/-- `bevy::math::IVec3`, components modelled as unbounded integers. -/
structure IVec3 where
  x : Int
  y : Int
  z : Int
deriving DecidableEq

/-- `bevy::math::I16Vec3`, components modelled as unbounded integers. -/
structure I16Vec3 where
  x : Int
  y : Int
  z : Int
deriving DecidableEq

def IVec3.zero : IVec3 := ⟨0, 0, 0⟩

def IVec3.add (a b : IVec3) : IVec3 := ⟨a.x + b.x, a.y + b.y, a.z + b.z⟩

/-- Distance between consecutive IEEE-754 single-precision values (unit in the
last place) at magnitude `n`, for `n` in the `i32` range: every natural number
`n ≤ 2^24` is exactly representable (ulp 1); for `n` in `(2^(23+e), 2^(24+e)]`
the representable values around `n` are the multiples of `2^e`.  The ladder
stops at `2^31`, which covers every `i32`. -/
def f32ulp (n : Nat) : Nat :=
  if n ≤ 2 ^ 24 then 1
  else if n ≤ 2 ^ 25 then 2
  else if n ≤ 2 ^ 26 then 4
  else if n ≤ 2 ^ 27 then 8
  else if n ≤ 2 ^ 28 then 16
  else if n ≤ 2 ^ 29 then 32
  else if n ≤ 2 ^ 30 then 64
  else 128

/-- Round a natural number in the `i32` range to the nearest IEEE-754
single-precision value (round-to-nearest, ties-to-even): the nearest multiple
of the ulp at that magnitude, ties going to the even multiple. -/
def roundNat (n : Nat) : Nat :=
  let u := f32ulp n
  let q := n / u
  let r := n % u
  if r * 2 < u then q * u
  else if u < r * 2 then (q + 1) * u
  else if q % 2 = 0 then q * u else (q + 1) * u

/-- `x as f32` for an `i32` value `x`: IEEE-754 rounding is symmetric around 0. -/
def roundF32 (x : Int) : Int :=
  if 0 ≤ x then roundNat x.toNat else -(roundNat (-x).toNat)

/-- `ChunkGrid::to_chunk_coord` (identical in both revisions):
`(raw_coordinate / CHUNK_SIZE_F32).floor() as i32`, called on `x as f32`.
Division of a binary float by 32 and `floor` are exact, so the embedding is
floor-division of the rounded input (see the module docstring). -/
def ChunkGrid.to_chunk_coord (raw_coordinate : Int) : Int :=
  Int.fdiv (roundF32 raw_coordinate) SIZE

/-- `ChunkGrid::to_chunk_coordinates_from_ivec3` (old revision) /
`ChunkGrid::to_chunk_coordinates(position.as_vec3())` (new revision):
per-axis `to_chunk_coord` on the `i32 as f32` components. -/
def ChunkGrid.to_chunk_coordinates_from_ivec3 (raw_coordinates : IVec3) : IVec3 :=
  ⟨ChunkGrid.to_chunk_coord raw_coordinates.x,
   ChunkGrid.to_chunk_coord raw_coordinates.y,
   ChunkGrid.to_chunk_coord raw_coordinates.z⟩

/-- `BlockGrid::to_block_coord` (old revision) = `Chunk::to_block_coord` (new
revision): `raw % 32` with Rust's truncating `%` (`Int.tmod`), then `+ 32`
when negative. -/
def BlockGrid.to_block_coord (raw_coordinate : Int) : Int :=
  let block_coord := Int.tmod raw_coordinate SIZE
  if 0 ≤ block_coord then block_coord else block_coord + SIZE

/-- `BlockGrid::to_block_coordinates` = `Chunk::to_block_coordinates`. -/
def BlockGrid.to_block_coordinates (raw_coordinates : IVec3) : I16Vec3 :=
  ⟨BlockGrid.to_block_coord raw_coordinates.x,
   BlockGrid.to_block_coord raw_coordinates.y,
   BlockGrid.to_block_coord raw_coordinates.z⟩

/-- `BlockGrid::to_index` (old revision, `src/chunk.rs`): bounds-checked, returns
`None` when any component is outside `[0, 32)`, otherwise the linear index
`x + y*32 + z*32*32` (the final `as usize` is exact here because the checked
value is in `[0, 32767]`). -/
def BlockGrid.to_index (block_coordinates : I16Vec3) : Option Nat :=
  if block_coordinates.x < 0 ∨ SIZE ≤ block_coordinates.x then none
  else if block_coordinates.y < 0 ∨ SIZE ≤ block_coordinates.y then none
  else if block_coordinates.z < 0 ∨ SIZE ≤ block_coordinates.z then none
  else some (block_coordinates.x + block_coordinates.y * SIZE
      + block_coordinates.z * SIZE * SIZE).toNat

/-- `BlockGrid::to_block_coordinates_from_index` (old revision):
`i16::try_from(index)` fails (→ `None`) for `index > 32767`; the subsequent
`< 0` test can never fire for a `usize` input but is kept from the source; the
components are truncating i16 division/modulus, which on the non-negative
`i16` value coincide with `Nat` division/modulus. -/
def BlockGrid.to_block_coordinates_from_index (index : Nat) : Option I16Vec3 :=
  if 32767 < index then none
  else if (index : Int) < 0 then none
  else some ⟨(index % 32 : Nat), (index / 32 % 32 : Nat), (index / (32 * 32) : Nat)⟩

/-- `Chunk::to_block_coordinates_from_index` (new revision, `src/chunk/mod.rs`):
same as the old revision's but without the dead `< 0` test. -/
def Chunk.to_block_coordinates_from_index (index : Nat) : Option I16Vec3 :=
  if 32767 < index then none
  else some ⟨(index % 32 : Nat), (index / 32 % 32 : Nat), (index / (32 * 32) : Nat)⟩

/-- `Chunk::to_block_coord` (new revision): identical body to the old
revision's `BlockGrid::to_block_coord`. -/
def Chunk.to_block_coord (raw_coordinate : Int) : Int :=
  BlockGrid.to_block_coord raw_coordinate

/-- `Chunk::to_block_coordinates` (new revision): identical body to the old
revision's `BlockGrid::to_block_coordinates`. -/
def Chunk.to_block_coordinates (raw_coordinates : IVec3) : I16Vec3 :=
  BlockGrid.to_block_coordinates raw_coordinates

/-- `Chunk::to_index` (new revision): unchecked
`(x + y*32 + z*32*32) as usize`.  For the block coordinates this code is
called on, the sum is in `[0, 32767]` and the cast is exact (theorem
`c10_set_block_indexing_in_bounds`); on a negative sum the Rust cast would
produce a huge `usize` (and the subsequent indexing would panic), which the
`Int.toNat` here does not reproduce — no claim evaluates it there. -/
def Chunk.to_index (position : I16Vec3) : Nat :=
  (position.x + position.y * SIZE + position.z * Z_INDEX).toNat

/-! ## Chunk contents, block grid, chunk grid -/

/-- `Blocks` / `SerializableChunkContents`: a `Box<[Option<Block>; CONTENTS_SIZE]>`,
modelled as its lookup function; only indices `< CONTENTS_SIZE` are ever
populated or read by the embedded code. -/
abbrev Contents := Nat → Option Block

def Contents.empty : Contents := fun _ => none

/-- Bounds-checked slice read `blocks.get(i)`: `None` out of bounds, otherwise
a reference to the cell (an `Option<Block>`). -/
def Contents.get (c : Contents) (i : Nat) : Option (Option Block) :=
  if i < CONTENTS_SIZE then some (c i) else none

/-- A chunk: its chunk coordinate plus its contents.  The old revision wraps
the contents in a `BlockGrid` newtype; the newtype is flattened here and the
`BlockGrid` methods take the contents directly. -/
structure Chunk where
  position : IVec3
  contents : Contents

/-- `Chunk::new` (new revision). -/
def Chunk.new (position : IVec3) : Chunk :=
  { position, contents := Contents.empty }

/-- `BlockGrid::get` (old revision): `self.blocks.get(Self::to_index(position)?)?.as_ref()`.
`to_index` only returns indices `≤ 32767 < CONTENTS_SIZE`, so the slice read
always succeeds and the result is the cell itself. -/
def BlockGrid.get (blocks : Contents) (position : I16Vec3) : Option Block :=
  (BlockGrid.to_index position).bind fun i => blocks i

/-- `BlockGrid::set` (old revision): `self.blocks[Self::to_index(position)?] = Some(block)`,
returning the updated contents on success and `None` (contents untouched) when
`to_index` rejects the position. -/
def BlockGrid.set (blocks : Contents) (position : I16Vec3) (block : Block) :
    Option Contents :=
  (BlockGrid.to_index position).map fun i => Function.update blocks i (some block)

/-- `ChunkGrid`: `HashMap<IVec3, Chunk>` (the new revision stores
`Arc<RwLock<Chunk>>`; the sharing/locking wrapper has no sequential content),
modelled as the partial lookup map. -/
abbrev ChunkGrid := IVec3 → Option Chunk

/-- `ChunkGrid::get_block` (old revision, `src/chunk.rs`): resolve the owning
chunk through the grid (miss ⇒ `None`), then read the cell at the block
coordinates. -/
def ChunkGrid.get_block (grid : ChunkGrid) (position : IVec3) : Option Block :=
  (grid (ChunkGrid.to_chunk_coordinates_from_ivec3 position)).bind fun chunk =>
    BlockGrid.get chunk.contents (BlockGrid.to_block_coordinates position)

/-- `ChunkGrid::set_block` (old revision): `self.chunks.get_mut(..)?.contents.set(.., block)`.
Returned pair: the grid after the call (mutation made explicit) and the
`Option<()>` result. -/
def ChunkGrid.set_block (grid : ChunkGrid) (position : IVec3) (block : Block) :
    ChunkGrid × Option Unit :=
  match grid (ChunkGrid.to_chunk_coordinates_from_ivec3 position) with
  | none => (grid, none)
  | some chunk =>
    match BlockGrid.set chunk.contents (BlockGrid.to_block_coordinates position) block with
    | none => (grid, none)
    | some contents =>
      (Function.update grid (ChunkGrid.to_chunk_coordinates_from_ivec3 position)
        (some { chunk with contents }), some ())

/-! ## Generation -/

/-- Rust's inclusive range `a..=b` over integers (empty when `b < a`). -/
def intRange (a b : Int) : List Int :=
  List.map (fun k : Nat => a + (k : Int)) (List.range (b + 1 - a).toNat)

/-- `Chunk::set_area` (new revision, unchecked; the old revision's
`BlockGrid::set_area` additionally bounds-checks `start`/`end` first, and every
call embedded here passes coordinates inside `[0,32)^3`, where the two bodies
coincide): triple loop writing `Some(block)` at `x + y*SIZE + z*Z_INDEX`. -/
def Chunk.set_area (chunk : Chunk) (start stop : I16Vec3) (block : Block) : Chunk :=
  { chunk with
    contents :=
      (intRange start.x stop.x).foldl (fun c x =>
        (intRange start.y stop.y).foldl (fun c y =>
          (intRange start.z stop.z).foldl (fun c z =>
            Function.update c (Chunk.to_index ⟨x, y, z⟩) (some block)) c) c)
        chunk.contents }

/-- One `(x, z)` column of `Chunk::generate` / `ChunkGrid::generate_chunk`
(the two revisions' bodies are identical): sample the noise at the world
column, derive the height, skip the column when the height is below the
chunk's y-range, otherwise fill it.

`noiseH` stands for the integer pipeline
`(noise.sample(Vec2::new(raw_x as f32, raw_z as f32)) * 10.) as i32` — an
arbitrary integer-valued function of the world column, the noise being a
replaceable black box. -/
def columnFill (position : IVec3) (noiseH : Int → Int → Int) (x z : Int)
    (chunk : Chunk) : Chunk :=
  let height := noiseH (position.x * SIZE + x) (position.z * SIZE + z) + 2
  if height < position.y * SIZE then chunk
  else
    chunk.set_area ⟨x, 0, z⟩ ⟨x, min (height + |position.y| * SIZE) (SIZE - 1), z⟩
      (Block.new "stone")

/-- `Chunk::generate` (new revision) = `ChunkGrid::generate_chunk` (old
revision): loop over the 32×32 columns. -/
def Chunk.generate (position : IVec3) (noiseH : Int → Int → Int) : Chunk :=
  (intRange 0 (SIZE - 1)).foldl (fun chunk x =>
    (intRange 0 (SIZE - 1)).foldl (fun chunk z =>
      columnFill position noiseH x z chunk) chunk)
    (Chunk.new position)

/-! ## Serialization -/

/-- Serialization of the contents array
(`#[serde_as(as = "Box<[Option<_>; CONTENTS_SIZE]>")]`): the `CONTENTS_SIZE`
cells in index order. -/
def SerializableChunkContents.serialize (contents : Contents) : List (Option Block) :=
  (List.range CONTENTS_SIZE).map contents

/-- `BlockVisitor::visit_seq`: start from the all-`None` default and, for
`i in 0..CONTENTS_SIZE`, copy the next sequence element into cell `i`,
breaking out (leaving the remaining cells `None`) when the sequence ends
early.  The resulting array is exactly this function. -/
def SerializableChunkContents.visit_seq (seq : List (Option Block)) : Contents :=
  fun i => if i < CONTENTS_SIZE then seq.getD i none else none

/-- `SerializableChunkContents::deserialize` (= the old revision's
`Blocks::deserialize`): drives `visit_seq`; the visitor body has no failing
path of its own (a short sequence breaks the loop instead of erroring), so the
result is always `Ok` for a sequence of well-formed cells. -/
def SerializableChunkContents.deserialize (seq : List (Option Block)) :
    Except String Contents :=
  Except.ok (SerializableChunkContents.visit_seq seq)

/-- `Chunk` serialization: `position` is `#[serde(skip)]`, so only the
contents are written. -/
def Chunk.serialize (chunk : Chunk) : List (Option Block) :=
  SerializableChunkContents.serialize chunk.contents

/-- `Chunk` deserialization: the skipped `position` field takes
`Default::default()` (`IVec3::ZERO`); the contents are deserialized. -/
def Chunk.deserialize (seq : List (Option Block)) : Except String Chunk :=
  (SerializableChunkContents.deserialize seq).map fun contents =>
    { position := IVec3.zero, contents }

/-- `create_chunk` (new revision, `src/level/mod.rs`), the chunk-producing part
of the generation task.  `load` models the file read composed with
`Chunk::deserialize`: `none` when `fs::read_to_string` failed, otherwise the
deserializer's outcome.  A successful load is re-stamped with the supplied
`position`; a read or deserialize failure logs and falls through to
`Chunk::generate`. -/
def create_chunk (load : Option (Except String Chunk)) (position : IVec3)
    (noiseH : Int → Int → Int) : Chunk :=
  match load with
  | some (Except.ok deserialized_chunk) => { deserialized_chunk with position }
  | some (Except.error _) => Chunk.generate position noiseH
  | none => Chunk.generate position noiseH

/-! ## Lifecycle: the eviction pass of the old revision (`src/level.rs`) -/

/-- `ChunkLoadState` (old revision).  The `Mesh` payload of `MeshReady` and
the `Entity` payload of `Saved` do not influence the eviction pass and are
modelled as `Option Unit` / `Nat`. -/
inductive ChunkLoadState where
  | Uninitialized
  | Generating
  | Generated
  | MeshBuilding
  | MeshReady (mesh : Option Unit)
  | Saving
  | Saved (entity : Nat)
deriving DecidableEq

/-- The `filter_map` body of `discard_far_chunks` for one grid key: keep
(select for eviction) a position that is outside the render window and whose
state entry is absent or still `Uninitialized`/`Generating`/`MeshBuilding`;
skip in-range positions and positions in any later state.  The `try_lock` on
the per-entry mutex is modelled as succeeding (the sequential, uncontended
execution of one tick). -/
def discard_selects (chunk_states : IVec3 → Option ChunkLoadState)
    (camera_position : IVec3) (hrd vrd : Int) (position : IVec3) : Bool :=
  if |position.x - camera_position.x| ≤ hrd ∧ |position.y - camera_position.y| ≤ vrd ∧
      |position.z - camera_position.z| ≤ hrd then false
  else
    match chunk_states position with
    | none => true
    | some ChunkLoadState.Uninitialized => true
    | some ChunkLoadState.Generating => true
    | some ChunkLoadState.MeshBuilding => true
    | some _ => false

/-- `discard_far_chunks` (old revision): the list of far chunks selected for
eviction this tick.  Each selected position then has its state set to `Saving`
and a `save_chunk` task spawned for it. -/
def discard_far_chunks (grid_keys : List IVec3)
    (chunk_states : IVec3 → Option ChunkLoadState) (camera_position : IVec3)
    (hrd vrd : Int) : List IVec3 :=
  grid_keys.filter (discard_selects chunk_states camera_position hrd vrd)

/-- The grid key set after `discard_far_chunks` and the `save_chunk` tasks it
spawned have run: `save_chunk`'s first action is
`chunk_grid.lock()...chunks.remove(&position)`, so every selected position
leaves the grid. -/
def grid_after_discard (grid_keys : List IVec3)
    (chunk_states : IVec3 → Option ChunkLoadState) (camera_position : IVec3)
    (hrd vrd : Int) : List IVec3 :=
  grid_keys.filter fun p => !discard_selects chunk_states camera_position hrd vrd p

/-! ## Meshing

Vertex positions, normals and UVs are `f32` triples in the source; every value
that actually occurs (block coordinates in `[0,32)` plus `±0.5`, unit normals,
atlas rectangle corners passed through unchanged) is exactly representable, so
they are modelled as rationals. -/

/-- A UV rectangle (`bevy::math::Rect`), as handed out by
`atlas_location_or_error`. -/
structure Rect where
  minX : ℚ
  minY : ℚ
  maxX : ℚ
  maxY : ℚ
deriving DecidableEq

/-- The atlas lookup `atlas_location_or_error`: total, falling back to the
designated error rectangle for unregistered identifiers. -/
abbrev AtlasFn := Block → Rect

/-- The six axis-aligned faces, in the order the source tests them
(TOP, BOTTOM, RIGHT, LEFT, BACK, FRONT). -/
inductive Dir where
  | Top
  | Bottom
  | Right
  | Left
  | Back
  | Front
deriving DecidableEq

def dirList : List Dir := [.Top, .Bottom, .Right, .Left, .Back, .Front]

/-- World-space offset of the adjacent cell tested for each face
(`IVec3::Y`, `-IVec3::Y`, `IVec3::X`, `-IVec3::X`, `IVec3::Z`, `-IVec3::Z`). -/
def dirOffset : Dir → IVec3
  | .Top => ⟨0, 1, 0⟩
  | .Bottom => ⟨0, -1, 0⟩
  | .Right => ⟨1, 0, 0⟩
  | .Left => ⟨-1, 0, 0⟩
  | .Back => ⟨0, 0, 1⟩
  | .Front => ⟨0, 0, -1⟩

/-- The four quad vertices pushed for a face of the unit cube at block-local
`(x, y, z)`, transcribed from the per-face `positions.extend_from_slice`
blocks. -/
def positionsFor (x y z : ℚ) : Dir → List (ℚ × ℚ × ℚ)
  | .Top => [(x + -0.5, y + 0.5, z + -0.5), (x + 0.5, y + 0.5, z + -0.5),
      (x + 0.5, y + 0.5, z + 0.5), (x + -0.5, y + 0.5, z + 0.5)]
  | .Bottom => [(x + -0.5, y + -0.5, z + -0.5), (x + 0.5, y + -0.5, z + -0.5),
      (x + 0.5, y + -0.5, z + 0.5), (x + -0.5, y + -0.5, z + 0.5)]
  | .Right => [(x + 0.5, y + -0.5, z + -0.5), (x + 0.5, y + -0.5, z + 0.5),
      (x + 0.5, y + 0.5, z + 0.5), (x + 0.5, y + 0.5, z + -0.5)]
  | .Left => [(x + -0.5, y + -0.5, z + -0.5), (x + -0.5, y + -0.5, z + 0.5),
      (x + -0.5, y + 0.5, z + 0.5), (x + -0.5, y + 0.5, z + -0.5)]
  | .Back => [(x + -0.5, y + -0.5, z + 0.5), (x + -0.5, y + 0.5, z + 0.5),
      (x + 0.5, y + 0.5, z + 0.5), (x + 0.5, y + -0.5, z + 0.5)]
  | .Front => [(x + -0.5, y + -0.5, z + -0.5), (x + -0.5, y + 0.5, z + -0.5),
      (x + 0.5, y + 0.5, z + -0.5), (x + 0.5, y + -0.5, z + -0.5)]

/-- The per-face normal (repeated four times per quad in the source). -/
def normalFor : Dir → ℚ × ℚ × ℚ
  | .Top => (0, 1, 0)
  | .Bottom => (0, -1, 0)
  | .Right => (1, 0, 0)
  | .Left => (-1, 0, 0)
  | .Back => (0, 0, 1)
  | .Front => (0, 0, -1)

/-- The six triangle indices pushed for a face at the current offset:
TOP/RIGHT/BACK use `[o, o+3, o+1, o+1, o+3, o+2]`, the mirrored
BOTTOM/LEFT/FRONT use `[o, o+1, o+3, o+1, o+2, o+3]`. -/
def indexPattern (d : Dir) (o : Nat) : List Nat :=
  match d with
  | .Top | .Right | .Back => [o, o + 3, o + 1, o + 1, o + 3, o + 2]
  | .Bottom | .Left | .Front => [o, o + 1, o + 3, o + 1, o + 2, o + 3]

/-- The four UV corners pushed per face (identical pattern for all faces). -/
def uvFor (r : Rect) : List (ℚ × ℚ) :=
  [(r.minX, r.minY), (r.maxX, r.minY), (r.maxX, r.maxY), (r.minX, r.maxY)]

/-- The mesh attribute buffers accumulated by both meshers, plus `faces`, a
ghost field recording the `(cell index, face)` of each emitted quad in
emission order.  `faces` is not part of the Rust data; it only names the quads
so that properties can be stated about them. -/
structure MeshData where
  positions : List (ℚ × ℚ × ℚ)
  normals : List (ℚ × ℚ × ℚ)
  indices : List Nat
  uv0 : List (ℚ × ℚ)
  indicesOffset : Nat
  faces : List (Nat × Dir)

def MeshData.empty : MeshData := ⟨[], [], [], [], 0, []⟩

/-- One face-emission block: extend the four buffers and bump
`indices_offset` by 4. -/
def emitFace (st : MeshData) (cell : Nat) (x y z : ℚ) (d : Dir) (rect : Rect) :
    MeshData where
  positions := st.positions ++ positionsFor x y z d
  normals := st.normals ++ List.replicate 4 (normalFor d)
  indices := st.indices ++ indexPattern d st.indicesOffset
  uv0 := st.uv0 ++ uvFor rect
  indicesOffset := st.indicesOffset + 4
  faces := st.faces ++ [(cell, d)]

/-- The six sequential `if` blocks shared by both meshers, as a fold over
`dirList` with a per-face condition. -/
def emitDirs (cond : Dir → Bool) (cell : Nat) (x y z : ℚ) (rect : Rect)
    (st : MeshData) : MeshData :=
  dirList.foldl (fun s d => if cond d then emitFace s cell x y z d rect else s) st

/-- The world position of the block at linear index `index` of `chunk`:
for `index ≤ 32767` these are exactly the components of
`IVec3::new(position.x as i32, ..) + chunk.position * CHUNK_SIZE_I32` computed
by the mesher loop (used to state properties of the mesh). -/
def blockWorldPosition (chunk : Chunk) (index : Nat) : IVec3 :=
  ⟨(index % 32 : Nat) + chunk.position.x * SIZE,
   (index / 32 % 32 : Nat) + chunk.position.y * SIZE,
   (index / (32 * 32) : Nat) + chunk.position.z * SIZE⟩

/-- One loop iteration of `rebuild_chunk_mesh` (old revision,
`src/meshing.rs`): decode the index (skip on failure), read the cell (skip
when empty), then emit a quad for each face whose adjacent cell — looked up
through the whole grid at world coordinates — is empty or absent. -/
def meshCellGrid (chunk_grid : ChunkGrid) (atlas : AtlasFn) (chunk : Chunk)
    (st : MeshData) (index : Nat) : MeshData :=
  match BlockGrid.to_block_coordinates_from_index index with
  | none => st
  | some position =>
    match BlockGrid.get chunk.contents position with
    | none => st
    | some block =>
      let block_position : IVec3 :=
        ⟨position.x + chunk.position.x * SIZE, position.y + chunk.position.y * SIZE,
         position.z + chunk.position.z * SIZE⟩
      emitDirs
        (fun d =>
          (ChunkGrid.get_block chunk_grid
            (IVec3.add block_position (dirOffset d))).isNone)
        index (position.x : ℚ) (position.y : ℚ) (position.z : ℚ) (atlas block) st

/-- The state accumulated by `rebuild_chunk_mesh`'s cell loop over all
`CHUNK_BLOCK_COUNT` indices. -/
def rebuildMeshData (chunk_grid : ChunkGrid) (atlas : AtlasFn) (chunk : Chunk) :
    MeshData :=
  (List.range CONTENTS_SIZE).foldl (meshCellGrid chunk_grid atlas chunk) MeshData.empty

/-- `rebuild_chunk_mesh` (old revision): run the cell loop; `None` when no
face was emitted (`indices.is_empty()`). -/
def rebuild_chunk_mesh (chunk_grid : ChunkGrid) (atlas : AtlasFn) (chunk : Chunk) :
    Option MeshData :=
  if (rebuildMeshData chunk_grid atlas chunk).indices.isEmpty then none
  else some (rebuildMeshData chunk_grid atlas chunk)

/-- `Option<&Option<Block>>::is_none_or(|block| block.is_none())`: the
neighbour slot is out of bounds or holds no block. -/
def cellIsEmpty (cell : Option (Option Block)) : Bool :=
  match cell with
  | none => true
  | some c => c.isNone

/-- The per-face guard of `build_mesh` (new revision, `src/chunk/mesh.rs`):
an index-arithmetic boundary test (no face is attempted on the chunk
boundary) plus an intra-chunk neighbour read at `index ± 1/SIZE/Z_INDEX`.
The boundary test also guards the `usize` subtractions against underflow. -/
def localFaceCond (contents : Contents) (index : Nat) : Dir → Bool
  | .Top => index / 32 % 32 != 31 && cellIsEmpty (Contents.get contents (index + 32))
  | .Bottom => index / 32 % 32 != 0 && cellIsEmpty (Contents.get contents (index - 32))
  | .Right => index % 32 != 31 && cellIsEmpty (Contents.get contents (index + 1))
  | .Left => index % 32 != 0 && cellIsEmpty (Contents.get contents (index - 1))
  | .Back => index / (32 * 32) != 31 &&
      cellIsEmpty (Contents.get contents (index + 32 * 32))
  | .Front => index / (32 * 32) != 0 &&
      cellIsEmpty (Contents.get contents (index - 32 * 32))

/-- One loop iteration of `build_mesh` (new revision): read the cell directly
at `index` (skip when empty), decode the block coordinates
(`to_block_coordinates_from_index(index).unwrap()`, always `Some` for
`index < CONTENTS_SIZE`), then emit per-face quads under `localFaceCond`. -/
def meshCellLocal (chunk : Chunk) (atlas : AtlasFn) (st : MeshData) (index : Nat) :
    MeshData :=
  match chunk.contents index with
  | none => st
  | some block =>
    let position := (Chunk.to_block_coordinates_from_index index).getD ⟨0, 0, 0⟩
    emitDirs (localFaceCond chunk.contents index) index
      (position.x : ℚ) (position.y : ℚ) (position.z : ℚ) (atlas block) st

/-- `build_mesh` (new revision).  The `Weak::upgrade` calls are modelled as
succeeding (their `None` outcome arises only from concurrent invalidation of
the chunk or atlas, outside this sequential model), which collapses the outer
`Option` of the Rust signature; the returned `Option` is the inner
"`None` when the mesh would have been empty" outcome.  `buildMeshData` is the
state accumulated by the cell loop; `build_mesh` is the full function. -/
def buildMeshData (chunk : Chunk) (atlas : AtlasFn) : MeshData :=
  (List.range CONTENTS_SIZE).foldl (meshCellLocal chunk atlas) MeshData.empty

def build_mesh (chunk : Chunk) (atlas : AtlasFn) : Option MeshData :=
  if (buildMeshData chunk atlas).indices.isEmpty then none
  else some (buildMeshData chunk atlas)

/-! ## Concrete fixtures used by witnesses, counterexamples and scenarios -/

def stoneB : Block := Block.new "stone"

def atlasC : AtlasFn := fun _ => ⟨0, 0, 1, 1⟩

/-- Index of block coordinates `(8, 8, 8)`: `8 + 8*32 + 8*1024`. -/
def idxA : Nat := 8456

/-- A chunk holding a single solid block at `(8, 8, 8)`. -/
def chunkA : Chunk := { position := IVec3.zero, contents := fun i => if i = idxA then some stoneB else none }

/-- A grid holding only `chunkA`. -/
def gridA : ChunkGrid := fun c => if c = IVec3.zero then some chunkA else none

/-- A chunk holding a solid block at `(8, 8, 8)` and solid blocks in all six
adjacent cells. -/
def chunkB : Chunk :=
  { position := IVec3.zero,
    contents := fun i =>
      if i = idxA ∨ i = idxA + 32 ∨ i = idxA - 32 ∨ i = idxA + 1 ∨ i = idxA - 1 ∨
          i = idxA + 1024 ∨ i = idxA - 1024 then some stoneB else none }

/-- A grid holding only `chunkB`. -/
def gridB : ChunkGrid := fun c => if c = IVec3.zero then some chunkB else none

/-- Index of block coordinates `(8, 31, 8)` (top boundary of the chunk):
`8 + 31*32 + 8*1024`. -/
def idxTop : Nat := 9192

/-- A chunk holding a single solid block at `(8, 31, 8)`, on the top boundary. -/
def chunkTop : Chunk :=
  { position := IVec3.zero, contents := fun i => if i = idxTop then some stoneB else none }

/-- A grid holding only `chunkTop`; the chunk above is absent. -/
def gridTop : ChunkGrid := fun c => if c = IVec3.zero then some chunkTop else none

/-! ## Specification-side helpers for the mesh theorems -/

/-- The faces `rebuild_chunk_mesh` emits while processing index `index`
(derived form of `meshCellGrid`, used to characterise the emitted face list). -/
def facesForCellGrid (chunk_grid : ChunkGrid) (chunk : Chunk) (index : Nat) :
    List (Nat × Dir) :=
  match BlockGrid.to_block_coordinates_from_index index with
  | none => []
  | some position =>
    match BlockGrid.get chunk.contents position with
    | none => []
    | some _ =>
      (dirList.filter fun d =>
        (ChunkGrid.get_block chunk_grid
          (IVec3.add
            ⟨position.x + chunk.position.x * SIZE, position.y + chunk.position.y * SIZE,
             position.z + chunk.position.z * SIZE⟩ (dirOffset d))).isNone).map
        fun d => (index, d)

/-- The face list of a mesher outcome: empty when no mesh was produced. -/
def facesOf : Option MeshData → List (Nat × Dir)
  | none => []
  | some m => m.faces

/-- The faces `build_mesh` emits while processing index `index`. -/
def facesForCellLocal (chunk : Chunk) (index : Nat) : List (Nat × Dir) :=
  match chunk.contents index with
  | none => []
  | some _ => (dirList.filter (localFaceCond chunk.contents index)).map fun d => (index, d)

end VoxelGame

namespace VoxelGame

-- Sanity examples mirroring the unit tests in `src/chunk.rs`.
example : ChunkGrid.to_chunk_coord 0 = 0 := by decide
example : ChunkGrid.to_chunk_coord 31 = 0 := by decide
example : ChunkGrid.to_chunk_coord 32 = 1 := by decide
example : ChunkGrid.to_chunk_coord (-1) = -1 := by decide
example : ChunkGrid.to_chunk_coord (-32) = -1 := by decide
example : ChunkGrid.to_chunk_coord (-33) = -2 := by decide
example : BlockGrid.to_block_coord (-1) = 31 := by decide
example : BlockGrid.to_block_coord (-32) = 0 := by decide
example : BlockGrid.to_index ⟨31, 31, 31⟩ = some 32767 := by decide
example : BlockGrid.to_index ⟨-1, -1, -1⟩ = none := by decide
example : BlockGrid.to_block_coordinates_from_index 32767 = some ⟨31, 31, 31⟩ := by decide
example : BlockGrid.to_block_coordinates_from_index 32768 = none := by decide

/-! ## Coordinate arithmetic lemmas -/

lemma tmod_if_eq_emod (x : Int) :
    (if 0 ≤ Int.tmod x 32 then Int.tmod x 32 else Int.tmod x 32 + 32) = x % 32 := by
  rcases x with m | m
  · have h : Int.tmod (Int.ofNat m) 32 = Int.ofNat (m % 32) := rfl
    have h2 : (Int.ofNat (m % 32)) = (Int.ofNat m) % 32 := by
      simp [Int.ofNat_emod]
    rw [h, h2]
    generalize ha : Int.ofNat m = a
    have ha2 : 0 ≤ a := by rw [← ha]; exact Int.ofNat_nonneg m
    split <;> omega
  · have h : Int.tmod (Int.negSucc m) 32 = -Int.ofNat ((m + 1) % 32) := rfl
    have h2 : (Int.ofNat ((m + 1) % 32)) = (Int.ofNat (m + 1)) % 32 := by
      simp [Int.ofNat_emod]
    have h3 : Int.negSucc m = -(Int.ofNat (m + 1)) := rfl
    rw [h, h2, h3]
    generalize Int.ofNat (m + 1) = a
    split <;> omega

lemma to_block_coord_eq_emod (x : Int) : BlockGrid.to_block_coord x = x % 32 := by
  simp only [BlockGrid.to_block_coord, SIZE]
  exact tmod_if_eq_emod x

lemma to_block_coord_nonneg (x : Int) : 0 ≤ BlockGrid.to_block_coord x := by
  rw [to_block_coord_eq_emod]; omega

lemma to_block_coord_lt (x : Int) : BlockGrid.to_block_coord x < 32 := by
  rw [to_block_coord_eq_emod]; omega

lemma roundNat_eq_of_le {n : Nat} (h : n ≤ 2 ^ 24) : roundNat n = n := by
  have h' : n ≤ 16777216 := by omega
  simp [roundNat, f32ulp, h', Nat.mod_one]

lemma roundF32_eq_of_abs_le {x : Int} (h : |x| ≤ 2 ^ 24) : roundF32 x = x := by
  rw [abs_le] at h
  unfold roundF32
  rcases le_or_lt 0 x with hx | hx
  · rw [if_pos hx, roundNat_eq_of_le (by omega)]
    omega
  · rw [if_neg (by omega), roundNat_eq_of_le (by omega)]
    omega

lemma to_chunk_coord_eq_fdiv {x : Int} (h : |x| ≤ 2 ^ 24) :
    ChunkGrid.to_chunk_coord x = x / 32 := by
  unfold ChunkGrid.to_chunk_coord SIZE
  rw [roundF32_eq_of_abs_le h, Int.fdiv_eq_ediv _ (by norm_num)]

/-- C3 counterexample input: `2^30 + 33` rounds to `2^30` during the `i32 →
f32` cast, so the chunk coordinate is computed from the wrong cell. -/
lemma to_chunk_coord_at_big : ChunkGrid.to_chunk_coord 1073741857 = 33554432 := by decide

/-- C3, as stated, fails: at world x = `2^30 + 33` (an `i32` value),
`chunk_coordinate_of(p) * 32 + block_coordinate_of(p)` is `2^30 + 1`, not
`floor(p) = p`, because `to_chunk_coord` casts the coordinate through `f32`
(24-bit significand) before flooring. -/
theorem c3_counterexample :
    ChunkGrid.to_chunk_coord 1073741857 * 32 + BlockGrid.to_block_coord 1073741857
      = 1073741825 ∧ (1073741825 : Int) ≠ 1073741857 := by
  constructor
  · rw [to_chunk_coord_at_big, to_block_coord_eq_emod]
    decide
  · decide

/-- C3 (amended): for every world position `p` with integer components, every
component of `block_coordinate_of(p)` (Euclidean modulo) lies in `[0, 32)` —
unconditionally; and on each axis whose component has magnitude at most `2^24`
(where the `i32 → f32` cast in `to_chunk_coord` is exact),
`chunk_coordinate_of(p) * 32 + block_coordinate_of(p)` equals that component of
`p` (= `floor p` for integer `p`). -/
theorem c3_coordinate_decomposition (p : IVec3) :
    (0 ≤ (BlockGrid.to_block_coordinates p).x ∧ (BlockGrid.to_block_coordinates p).x < 32 ∧
     0 ≤ (BlockGrid.to_block_coordinates p).y ∧ (BlockGrid.to_block_coordinates p).y < 32 ∧
     0 ≤ (BlockGrid.to_block_coordinates p).z ∧ (BlockGrid.to_block_coordinates p).z < 32) ∧
    (|p.x| ≤ 2 ^ 24 →
      (ChunkGrid.to_chunk_coordinates_from_ivec3 p).x * 32
        + (BlockGrid.to_block_coordinates p).x = p.x) ∧
    (|p.y| ≤ 2 ^ 24 →
      (ChunkGrid.to_chunk_coordinates_from_ivec3 p).y * 32
        + (BlockGrid.to_block_coordinates p).y = p.y) ∧
    (|p.z| ≤ 2 ^ 24 →
      (ChunkGrid.to_chunk_coordinates_from_ivec3 p).z * 32
        + (BlockGrid.to_block_coordinates p).z = p.z) := by
  unfold BlockGrid.to_block_coordinates ChunkGrid.to_chunk_coordinates_from_ivec3
  refine ⟨⟨to_block_coord_nonneg _, to_block_coord_lt _, to_block_coord_nonneg _,
    to_block_coord_lt _, to_block_coord_nonneg _, to_block_coord_lt _⟩, ?_, ?_, ?_⟩ <;>
    intro h <;>
    simp only [to_block_coord_eq_emod, to_chunk_coord_eq_fdiv h] <;> omega

theorem c3_coordinate_decomposition_witness :
    (0 ≤ (BlockGrid.to_block_coordinates ⟨-37, 0, 70⟩).x ∧
      (BlockGrid.to_block_coordinates ⟨-37, 0, 70⟩).x < 32) ∧
    |(-37 : Int)| ≤ 2 ^ 24 ∧
    (ChunkGrid.to_chunk_coordinates_from_ivec3 ⟨-37, 0, 70⟩).x * 32 +
      (BlockGrid.to_block_coordinates ⟨-37, 0, 70⟩).x = -37 := by
  obtain ⟨⟨hb0, hb1, -⟩, hx, -, -⟩ := c3_coordinate_decomposition ⟨-37, 0, 70⟩
  exact ⟨⟨hb0, hb1⟩, by decide, hx (by decide)⟩

/-! ## Index round-trip (C4, C10) -/

lemma to_index_inRange {c : I16Vec3} (hx0 : 0 ≤ c.x) (hx1 : c.x < 32)
    (hy0 : 0 ≤ c.y) (hy1 : c.y < 32) (hz0 : 0 ≤ c.z) (hz1 : c.z < 32) :
    BlockGrid.to_index c = some (c.x + c.y * 32 + c.z * 32 * 32).toNat := by
  simp only [BlockGrid.to_index, SIZE]
  rw [if_neg (by omega), if_neg (by omega), if_neg (by omega)]

lemma from_index_inRange {c : I16Vec3} (hx0 : 0 ≤ c.x) (hx1 : c.x < 32)
    (hy0 : 0 ≤ c.y) (hy1 : c.y < 32) (hz0 : 0 ≤ c.z) (hz1 : c.z < 32) :
    BlockGrid.to_block_coordinates_from_index (c.x + c.y * 32 + c.z * 32 * 32).toNat
      = some c := by
  simp only [BlockGrid.to_block_coordinates_from_index]
  rw [if_neg (by omega), if_neg (by omega)]
  obtain ⟨x, y, z⟩ := c
  simp only [I16Vec3.mk.injEq, Option.some.injEq] at *
  refine ⟨?_, ?_, ?_⟩ <;> omega

lemma to_index_lt {c : I16Vec3} (hx0 : 0 ≤ c.x) (hx1 : c.x < 32)
    (hy0 : 0 ≤ c.y) (hy1 : c.y < 32) (hz0 : 0 ≤ c.z) (hz1 : c.z < 32) :
    (c.x + c.y * 32 + c.z * 32 * 32).toNat < CONTENTS_SIZE := by
  simp only [CONTENTS_SIZE]
  omega

/-- C4: for block coordinates inside `[0,32)^3` the index round-trip
`to_block_coordinates_from_index (to_index c) = c` holds (with the index below
`32^3`); any coordinate with a component outside `[0,32)` makes `to_index`
return `None`, and any index `≥ 32^3` makes `to_block_coordinates_from_index`
return `None` — never a wrapped value. -/
theorem c4_index_roundtrip :
    (∀ c : I16Vec3, 0 ≤ c.x → c.x < 32 → 0 ≤ c.y → c.y < 32 → 0 ≤ c.z → c.z < 32 →
      ∃ i, BlockGrid.to_index c = some i ∧ i < CONTENTS_SIZE ∧
        BlockGrid.to_block_coordinates_from_index i = some c) ∧
    (∀ c : I16Vec3, (c.x < 0 ∨ 32 ≤ c.x ∨ c.y < 0 ∨ 32 ≤ c.y ∨ c.z < 0 ∨ 32 ≤ c.z) →
      BlockGrid.to_index c = none) ∧
    (∀ i : Nat, CONTENTS_SIZE ≤ i → BlockGrid.to_block_coordinates_from_index i = none) := by
  refine ⟨?_, ?_, ?_⟩
  · intro c hx0 hx1 hy0 hy1 hz0 hz1
    exact ⟨_, to_index_inRange hx0 hx1 hy0 hy1 hz0 hz1,
      to_index_lt hx0 hx1 hy0 hy1 hz0 hz1,
      from_index_inRange hx0 hx1 hy0 hy1 hz0 hz1⟩
  · intro c h
    simp only [BlockGrid.to_index, SIZE]
    split
    · rfl
    split
    · rfl
    split
    · rfl
    · exfalso; omega
  · intro i hi
    simp only [CONTENTS_SIZE] at hi
    simp only [BlockGrid.to_block_coordinates_from_index]
    rw [if_pos (by omega)]

theorem c4_index_roundtrip_witness :
    (BlockGrid.to_index ⟨1, 2, 3⟩).bind BlockGrid.to_block_coordinates_from_index
      = some ⟨1, 2, 3⟩ ∧
    BlockGrid.to_index ⟨-1, 0, 0⟩ = none ∧
    BlockGrid.to_block_coordinates_from_index 32768 = none := by
  obtain ⟨h1, h2, h3⟩ := c4_index_roundtrip
  obtain ⟨i, hi, -, hback⟩ := h1 ⟨1, 2, 3⟩ (by decide) (by decide) (by decide) (by decide)
    (by decide) (by decide)
  refine ⟨?_, h2 ⟨-1, 0, 0⟩ (by decide), h3 32768 (by decide)⟩
  rw [hi, Option.some_bind, hback]

/-- C10: for every world position with integer components,
`Chunk::to_block_coordinates` yields components in `[0, 32)` and the unchecked
`Chunk::to_index` of that result is below `32^3`, so the direct array indexing
inside the new revision's `ChunkGrid::set_block` is in bounds whenever the
owning chunk is present (the out-of-bounds panic is unreachable). -/
theorem c10_set_block_indexing_in_bounds (p : IVec3) :
    (0 ≤ (Chunk.to_block_coordinates p).x ∧ (Chunk.to_block_coordinates p).x < 32 ∧
     0 ≤ (Chunk.to_block_coordinates p).y ∧ (Chunk.to_block_coordinates p).y < 32 ∧
     0 ≤ (Chunk.to_block_coordinates p).z ∧ (Chunk.to_block_coordinates p).z < 32) ∧
    Chunk.to_index (Chunk.to_block_coordinates p) < CONTENTS_SIZE := by
  have hb : ∀ x : Int, 0 ≤ BlockGrid.to_block_coord x ∧ BlockGrid.to_block_coord x < 32 :=
    fun x => ⟨to_block_coord_nonneg x, to_block_coord_lt x⟩
  obtain ⟨hx0, hx1⟩ := hb p.x
  obtain ⟨hy0, hy1⟩ := hb p.y
  obtain ⟨hz0, hz1⟩ := hb p.z
  simp only [Chunk.to_block_coordinates, Chunk.to_index, BlockGrid.to_block_coordinates,
    SIZE, Z_INDEX, CONTENTS_SIZE]
  refine ⟨⟨hx0, hx1, hy0, hy1, hz0, hz1⟩, ?_⟩
  omega

/-! ## `set_block` (C9) -/

/-- C9: `ChunkGrid::set_block` on a position whose owning chunk is absent
returns the not-found signal `None` and leaves the grid untouched (in
particular it creates no chunk); on a position whose owning chunk is present
it returns `Some(())` and the written cell reads back as the given block. -/
theorem c9_set_block (grid : ChunkGrid) (p : IVec3) (b : Block) :
    (grid (ChunkGrid.to_chunk_coordinates_from_ivec3 p) = none →
      ChunkGrid.set_block grid p b = (grid, none)) ∧
    (∀ chunk, grid (ChunkGrid.to_chunk_coordinates_from_ivec3 p) = some chunk →
      (ChunkGrid.set_block grid p b).2 = some () ∧
      ChunkGrid.get_block (ChunkGrid.set_block grid p b).1 p = some b) := by
  have hidx : BlockGrid.to_index (BlockGrid.to_block_coordinates p)
      = some ((BlockGrid.to_block_coordinates p).x
          + (BlockGrid.to_block_coordinates p).y * 32
          + (BlockGrid.to_block_coordinates p).z * 32 * 32).toNat := by
    refine to_index_inRange (to_block_coord_nonneg _) (to_block_coord_lt _)
      (to_block_coord_nonneg _) (to_block_coord_lt _)
      (to_block_coord_nonneg _) (to_block_coord_lt _)
  constructor
  · intro h
    simp only [ChunkGrid.set_block, h]
  · intro chunk h
    simp only [ChunkGrid.set_block, h, BlockGrid.set, hidx, Option.map_some']
    constructor
    · trivial
    · simp only [ChunkGrid.get_block, Function.update_same, Option.some_bind,
        BlockGrid.get, hidx, Function.update_same]

theorem c9_set_block_witness :
    gridA (ChunkGrid.to_chunk_coordinates_from_ivec3 ⟨40, 0, 0⟩) = none ∧
    ChunkGrid.set_block gridA ⟨40, 0, 0⟩ stoneB = (gridA, none) ∧
    gridA (ChunkGrid.to_chunk_coordinates_from_ivec3 ⟨1, 2, 3⟩) = some chunkA ∧
    (ChunkGrid.set_block gridA ⟨1, 2, 3⟩ stoneB).2 = some () ∧
    ChunkGrid.get_block (ChunkGrid.set_block gridA ⟨1, 2, 3⟩ stoneB).1 ⟨1, 2, 3⟩
      = some stoneB := by
  have hc1 : ChunkGrid.to_chunk_coordinates_from_ivec3 ⟨40, 0, 0⟩ = ⟨1, 0, 0⟩ := by decide
  have hc2 : ChunkGrid.to_chunk_coordinates_from_ivec3 ⟨1, 2, 3⟩ = IVec3.zero := by decide
  have habs : gridA (ChunkGrid.to_chunk_coordinates_from_ivec3 ⟨40, 0, 0⟩) = none := by
    rw [hc1]
    simp only [gridA]
    rw [if_neg (by decide)]
  have hpres : gridA (ChunkGrid.to_chunk_coordinates_from_ivec3 ⟨1, 2, 3⟩) = some chunkA := by
    rw [hc2]
    simp [gridA]
  obtain ⟨h1, _⟩ := c9_set_block gridA ⟨40, 0, 0⟩ stoneB
  obtain ⟨_, h2⟩ := c9_set_block gridA ⟨1, 2, 3⟩ stoneB
  obtain ⟨h2a, h2b⟩ := h2 chunkA hpres
  exact ⟨habs, h1 habs, hpres, h2a, h2b⟩

/-! ## Loader fall-through (C8) and serialization (C6, C7) -/

/-- C8: when the persisted-chunk read or its deserialization fails, the
generation task does not propagate the error — `create_chunk` falls through to
`Chunk::generate`, so it produces a chunk for its coordinate in every case. -/
theorem c8_create_chunk_fallthrough (load : Option (Except String Chunk))
    (position : IVec3) (noiseH : Int → Int → Int)
    (h : load = none ∨ ∃ e, load = some (Except.error e)) :
    create_chunk load position noiseH = Chunk.generate position noiseH := by
  rcases h with h | ⟨e, h⟩ <;> rw [h] <;> rfl

theorem c8_create_chunk_fallthrough_witness :
    create_chunk none IVec3.zero (fun _ _ => 0)
      = Chunk.generate IVec3.zero (fun _ _ => 0) ∧
    create_chunk (some (Except.error "corrupt")) IVec3.zero (fun _ _ => 0)
      = Chunk.generate IVec3.zero (fun _ _ => 0) := by
  exact ⟨c8_create_chunk_fallthrough none IVec3.zero (fun _ _ => 0) (Or.inl rfl),
    c8_create_chunk_fallthrough (some (Except.error "corrupt")) IVec3.zero (fun _ _ => 0)
      (Or.inr ⟨"corrupt", rfl⟩)⟩

/-- C7: decoding a serialized cell sequence shorter than `32^3` succeeds (the
visitor breaks out of its loop instead of erroring) and every cell past the
end of the sequence is absent (`None`) in the resulting grid. -/
theorem c7_short_sequence_decode (seq : List (Option Block))
    (h : seq.length < CONTENTS_SIZE) :
    ∃ contents, SerializableChunkContents.deserialize seq = Except.ok contents ∧
      (∀ i, i < seq.length → contents i = seq.getD i none) ∧
      (∀ i, seq.length ≤ i → contents i = none) := by
  refine ⟨SerializableChunkContents.visit_seq seq, rfl, ?_, ?_⟩
  · intro i hi
    simp only [SerializableChunkContents.visit_seq]
    rw [if_pos (by omega)]
  · intro i hi
    simp only [SerializableChunkContents.visit_seq]
    split
    · exact List.getD_eq_default _ _ hi
    · rfl

theorem c7_short_sequence_decode_witness :
    SerializableChunkContents.deserialize [some stoneB, none, some stoneB]
      = Except.ok (SerializableChunkContents.visit_seq [some stoneB, none, some stoneB]) ∧
    SerializableChunkContents.visit_seq [some stoneB, none, some stoneB] 7 = none := by
  obtain ⟨contents, hok, -, htail⟩ :=
    c7_short_sequence_decode [some stoneB, none, some stoneB] (by simp [CONTENTS_SIZE])
  have hc : contents = SerializableChunkContents.visit_seq [some stoneB, none, some stoneB] := by
    have hd : SerializableChunkContents.deserialize [some stoneB, none, some stoneB]
        = Except.ok (SerializableChunkContents.visit_seq [some stoneB, none, some stoneB]) := rfl
    rw [hd] at hok
    exact (Except.ok.inj hok).symm
  refine ⟨rfl, ?_⟩
  rw [← hc]
  exact htail 7 (by simp)

/-- C6: deserializing the serialization of a chunk reproduces its block grid
cell for cell over all `32^3` cells, and the chunk position is not read from
the serialized bytes — the loader re-stamps the deserialized chunk with the
supplied coordinate. -/
theorem c6_serialize_roundtrip (chunk : Chunk) (position : IVec3)
    (noiseH : Int → Int → Int) :
    (create_chunk (some (Chunk.deserialize (Chunk.serialize chunk))) position noiseH).position
      = position ∧
    ∀ i, i < CONTENTS_SIZE →
      (create_chunk (some (Chunk.deserialize (Chunk.serialize chunk))) position
        noiseH).contents i = chunk.contents i := by
  constructor
  · rfl
  · intro i hi
    show SerializableChunkContents.visit_seq
      (SerializableChunkContents.serialize chunk.contents) i = chunk.contents i
    simp only [SerializableChunkContents.visit_seq, SerializableChunkContents.serialize]
    rw [if_pos hi, List.getD_eq_getElem?_getD, List.getElem?_map, List.getElem?_range hi]
    rfl

theorem c6_serialize_roundtrip_witness :
    (create_chunk (some (Chunk.deserialize (Chunk.serialize chunkA))) ⟨7, -3, 2⟩
      (fun _ _ => 0)).position = ⟨7, -3, 2⟩ ∧
    (create_chunk (some (Chunk.deserialize (Chunk.serialize chunkA))) ⟨7, -3, 2⟩
      (fun _ _ => 0)).contents idxA = chunkA.contents idxA := by
  obtain ⟨h1, h2⟩ := c6_serialize_roundtrip chunkA ⟨7, -3, 2⟩ (fun _ _ => 0)
  exact ⟨h1, h2 idxA (by simp [idxA, CONTENTS_SIZE])⟩

/-! ## Eviction pass (C5) -/

/-- C5, as stated, fails: a chunk at coordinate `(3,0,0)` that is outside the
render window (camera at the origin, radii 1) while its lifecycle state is
still `Generating` IS selected by `discard_far_chunks` on that tick, and the
`save_chunk` task spawned for it removes it from the grid — eviction is not
deferred for the `Generating`/`MeshBuilding` phases. -/
theorem c5_counterexample :
    (fun p : IVec3 => if p = ⟨3, 0, 0⟩ then some ChunkLoadState.Generating else none)
        ⟨3, 0, 0⟩ = some ChunkLoadState.Generating ∧
    discard_far_chunks [⟨3, 0, 0⟩]
      (fun p => if p = ⟨3, 0, 0⟩ then some ChunkLoadState.Generating else none)
      IVec3.zero 1 1 = [⟨3, 0, 0⟩] ∧
    grid_after_discard [⟨3, 0, 0⟩]
      (fun p => if p = ⟨3, 0, 0⟩ then some ChunkLoadState.Generating else none)
      IVec3.zero 1 1 = [] := by
  refine ⟨rfl, ?_, ?_⟩ <;> decide

/-- C5 (amended): on each tick of the old revision's eviction pass, a far
chunk whose lifecycle state is absent or still
`Uninitialized`/`Generating`/`MeshBuilding` is selected for eviction
immediately (its `save_chunk` task removes it from the grid); a far chunk in
any later phase (`Generated`, `MeshReady`, `Saving`, `Saved`) is NOT selected
on that tick — deferral applies to the settled/late phases, not to the
in-flight `Generating`/`MeshBuilding` phases. -/
theorem c5_eviction_policy (grid_keys : List IVec3)
    (chunk_states : IVec3 → Option ChunkLoadState) (camera_position : IVec3)
    (hrd vrd : Int) (p : IVec3) (hp : p ∈ grid_keys)
    (hfar : ¬(|p.x - camera_position.x| ≤ hrd ∧ |p.y - camera_position.y| ≤ vrd ∧
      |p.z - camera_position.z| ≤ hrd)) :
    ((chunk_states p = none ∨ chunk_states p = some ChunkLoadState.Uninitialized ∨
        chunk_states p = some ChunkLoadState.Generating ∨
        chunk_states p = some ChunkLoadState.MeshBuilding) →
      p ∈ discard_far_chunks grid_keys chunk_states camera_position hrd vrd ∧
      p ∉ grid_after_discard grid_keys chunk_states camera_position hrd vrd) ∧
    (∀ s, chunk_states p = some s → s ≠ ChunkLoadState.Uninitialized →
      s ≠ ChunkLoadState.Generating → s ≠ ChunkLoadState.MeshBuilding →
      p ∉ discard_far_chunks grid_keys chunk_states camera_position hrd vrd ∧
      p ∈ grid_after_discard grid_keys chunk_states camera_position hrd vrd) := by
  constructor
  · intro h
    have hsel : discard_selects chunk_states camera_position hrd vrd p = true := by
      simp only [discard_selects, if_neg hfar]
      rcases h with h | h | h | h <;> rw [h]
    constructor
    · exact List.mem_filter.mpr ⟨hp, hsel⟩
    · intro hmem
      have := (List.mem_filter.mp hmem).2
      simp [hsel] at this
  · intro s hs h1 h2 h3
    have hsel : discard_selects chunk_states camera_position hrd vrd p = false := by
      simp only [discard_selects, if_neg hfar]
      rw [hs]
      cases s <;> simp_all
    constructor
    · intro hmem
      have := (List.mem_filter.mp hmem).2
      simp [hsel] at this
    · exact List.mem_filter.mpr ⟨hp, by simp [hsel]⟩

theorem c5_eviction_policy_witness :
    (⟨0, 5, 0⟩ : IVec3) ∈ [(⟨0, 5, 0⟩ : IVec3)] ∧
    (⟨0, 5, 0⟩ : IVec3) ∈ grid_after_discard [⟨0, 5, 0⟩]
      (fun p => if p = ⟨0, 5, 0⟩ then some ChunkLoadState.Saving else none)
      IVec3.zero 1 1 := by
  have h := c5_eviction_policy [⟨0, 5, 0⟩]
    (fun p => if p = ⟨0, 5, 0⟩ then some ChunkLoadState.Saving else none)
    IVec3.zero 1 1 ⟨0, 5, 0⟩ (by decide) (by decide)
  exact ⟨by decide, (h.2 ChunkLoadState.Saving (by decide) (by decide) (by decide) (by decide)).2⟩

/-! ## Generation (C2) -/

lemma mem_intRange {a b y : Int} : y ∈ intRange a b ↔ a ≤ y ∧ y ≤ b := by
  unfold intRange
  rw [List.mem_map]
  constructor
  · rintro ⟨k, hk, rfl⟩
    rw [List.mem_range] at hk
    omega
  · intro h
    refine ⟨(y - a).toNat, ?_, by omega⟩
    rw [List.mem_range]
    omega

lemma intRange_nodup (a b : Int) : (intRange a b).Nodup := by
  unfold intRange
  refine List.Nodup.map ?_ (List.nodup_range _)
  intro k k' h
  dsimp only at h
  omega

lemma intRange_single (a : Int) : intRange a a = [a] := by
  have h : (a + 1 - a).toNat = 1 := by omega
  simp [intRange, h, List.range_succ]

lemma foldl_update_apply (l : List Int) (σ : Int → Nat) (v : Option Block)
    (c : Contents) (i : Nat) :
    (l.foldl (fun c y => Function.update c (σ y) v) c) i
      = if ∃ y ∈ l, σ y = i then v else c i := by
  induction l generalizing c with
  | nil => simp
  | cons a t ih =>
    simp only [List.foldl_cons, ih]
    by_cases h1 : ∃ y ∈ t, σ y = i
    · rw [if_pos h1, if_pos ⟨h1.choose, List.mem_cons_of_mem a h1.choose_spec.1,
        h1.choose_spec.2⟩]
    · rw [if_neg h1]
      by_cases h2 : σ a = i
      · rw [if_pos ⟨a, List.mem_cons_self a t, h2⟩, ← h2, Function.update_same]
      · rw [if_neg ?_, Function.update_noteq (fun hc => h2 hc.symm)]
        rintro ⟨y, hy, hyi⟩
        rcases List.mem_cons.mp hy with rfl | hy
        · exact h2 hyi
        · exact h1 ⟨y, hy, hyi⟩

open Classical in
/-- Pointwise contents of a single-column `set_area` call
(`start = (x,0,z)`, `end = (x,t,z)`), the only shape `generate` uses. -/
lemma set_area_column_contents (ch : Chunk) (x z t : Int) (b : Block) (i : Nat) :
    (ch.set_area ⟨x, 0, z⟩ ⟨x, t, z⟩ b).contents i
      = if ∃ y, 0 ≤ y ∧ y ≤ t ∧ Chunk.to_index ⟨x, y, z⟩ = i then some b
        else ch.contents i := by
  simp only [Chunk.set_area, intRange_single, List.foldl_cons, List.foldl_nil]
  rw [foldl_update_apply (intRange 0 t) (fun y => Chunk.to_index ⟨x, y, z⟩) (some b)]
  congr 1
  simp only [eq_iff_iff]
  constructor
  · rintro ⟨y, hy, hyi⟩
    exact ⟨y, (mem_intRange.mp hy).1, (mem_intRange.mp hy).2, hyi⟩
  · rintro ⟨y, h0, ht, hyi⟩
    exact ⟨y, mem_intRange.mpr ⟨h0, ht⟩, hyi⟩

lemma columnFill_position (position : IVec3) (noiseH : Int → Int → Int)
    (x z : Int) (ch : Chunk) :
    (columnFill position noiseH x z ch).position = ch.position := by
  simp only [columnFill, Chunk.set_area]
  split <;> rfl

open Classical in
/-- Pointwise contents after one `(x, z)` column of `generate`. -/
lemma columnFill_contents (position : IVec3) (noiseH : Int → Int → Int)
    (x z : Int) (ch : Chunk) (i : Nat) :
    (columnFill position noiseH x z ch).contents i
      = if position.y * SIZE ≤ noiseH (position.x * SIZE + x) (position.z * SIZE + z) + 2 ∧
          ∃ y, 0 ≤ y ∧
            y ≤ min (noiseH (position.x * SIZE + x) (position.z * SIZE + z) + 2
              + |position.y| * SIZE) (SIZE - 1) ∧
            Chunk.to_index ⟨x, y, z⟩ = i
        then some (Block.new "stone") else ch.contents i := by
  simp only [columnFill]
  split
  · rename_i hlt
    rw [if_neg fun hc => absurd hc.1 (by omega)]
  · rename_i hge
    rw [set_area_column_contents]
    by_cases h : ∃ y, 0 ≤ y ∧
        y ≤ min (noiseH (position.x * SIZE + x) (position.z * SIZE + z) + 2
          + |position.y| * SIZE) (SIZE - 1) ∧ Chunk.to_index ⟨x, y, z⟩ = i
    · rw [if_pos h, if_pos ⟨by omega, h⟩]
    · rw [if_neg h, if_neg fun hy => h hy.2]

lemma foldl_read_const {α C R : Type} {step : C → α → C} {r : C → R} :
    ∀ (l : List α), (∀ c a, a ∈ l → r (step c a) = r c) →
      ∀ c, r (l.foldl step c) = r c := by
  intro l
  induction l with
  | nil => intro _ c; rfl
  | cons a t ih =>
    intro h c
    rw [List.foldl_cons, ih (fun c' a' ha' => h c' a' (List.mem_cons_of_mem a ha')),
      h c a (List.mem_cons_self a t)]

lemma foldl_read_unique {α C R : Type} {step : C → α → C} {r : C → R} {b : α} {V : R} :
    ∀ (l : List α), b ∈ l → l.Nodup →
      (∀ c a, a ∈ l → a ≠ b → r (step c a) = r c) →
      (∀ c, r (step c b) = V) →
      ∀ c, r (l.foldl step c) = V := by
  intro l
  induction l with
  | nil => intro h; cases h
  | cons hd t ih =>
    intro hmem hnd hskip hhit c
    rw [List.foldl_cons]
    by_cases hcase : hd = b
    · subst hcase
      have ht : ∀ c' a', a' ∈ t → r (step c' a') = r c' := fun c' a' ha' =>
        hskip c' a' (List.mem_cons_of_mem hd ha')
          fun hc => (List.nodup_cons.mp hnd).1 (hc ▸ ha')
      rw [foldl_read_const t ht, hhit]
    · have hmem' : b ∈ t := by
        rcases List.mem_cons.mp hmem with h | h
        · exact absurd h.symm hcase
        · exact h
      exact ih hmem' (List.nodup_cons.mp hnd).2
        (fun c' a' ha' => hskip c' a' (List.mem_cons_of_mem hd ha')) hhit _

lemma to_index_inj {x y z x' y' z' : Int}
    (hx : 0 ≤ x ∧ x < 32) (hy : 0 ≤ y ∧ y < 32) (hz : 0 ≤ z ∧ z < 32)
    (hx' : 0 ≤ x' ∧ x' < 32) (hy' : 0 ≤ y' ∧ y' < 32) (hz' : 0 ≤ z' ∧ z' < 32)
    (h : Chunk.to_index ⟨x, y, z⟩ = Chunk.to_index ⟨x', y', z'⟩) :
    x = x' ∧ y = y' ∧ z = z' := by
  simp only [Chunk.to_index, SIZE, Z_INDEX] at h
  omega

/-- The fill produced by `generate` for the cell at block coordinates
`(x, y, z)`: derived once here, used by both the C2 theorem and the C2
counterexample. -/
lemma generate_contents (position : IVec3) (noiseH : Int → Int → Int)
    (x y z : Int) (hx : 0 ≤ x ∧ x < 32) (hy : 0 ≤ y ∧ y < 32) (hz : 0 ≤ z ∧ z < 32) :
    (Chunk.generate position noiseH).contents (Chunk.to_index ⟨x, y, z⟩)
      = if position.y * SIZE ≤ noiseH (position.x * SIZE + x) (position.z * SIZE + z) + 2 ∧
          y ≤ min (noiseH (position.x * SIZE + x) (position.z * SIZE + z) + 2
            + |position.y| * SIZE) (SIZE - 1)
        then some (Block.new "stone") else none := by
  have h31 : (SIZE - 1 : Int) = 31 := by simp [SIZE]
  set i0 := Chunk.to_index ⟨x, y, z⟩ with hi0
  -- a column `(x', z') ≠ (x, z)` never writes cell `i0`
  have hskipcol : ∀ (x' z' : Int), 0 ≤ x' → x' < 32 → 0 ≤ z' → z' < 32 →
      (x' ≠ x ∨ z' ≠ z) → ∀ ch : Chunk,
      (columnFill position noiseH x' z' ch).contents i0 = ch.contents i0 := by
    intro x' z' hx'0 hx'1 hz'0 hz'1 hne ch
    rw [columnFill_contents]
    rw [if_neg]
    rintro ⟨-, y', hy'0, hy'1, hy'i⟩
    obtain ⟨hxx, -, hzz⟩ := to_index_inj ⟨hx'0, hx'1⟩ ⟨hy'0, by omega⟩ ⟨hz'0, hz'1⟩
      hx hy hz hy'i
    rcases hne with hne | hne <;> exact hne (by omega)
  by_cases hw : position.y * SIZE ≤ noiseH (position.x * SIZE + x) (position.z * SIZE + z) + 2 ∧
      y ≤ min (noiseH (position.x * SIZE + x) (position.z * SIZE + z) + 2
        + |position.y| * SIZE) (SIZE - 1)
  · -- the `(x, z)` column writes cell `i0` with the stone block
    rw [if_pos hw]
    have hhitcol : ∀ ch : Chunk,
        (columnFill position noiseH x z ch).contents i0 = some (Block.new "stone") := by
      intro ch
      rw [columnFill_contents, if_pos ⟨hw.1, y, hy.1, hw.2, rfl⟩]
    refine foldl_read_unique (b := x) (r := fun ch : Chunk => ch.contents i0)
      (intRange 0 (SIZE - 1)) (mem_intRange.mpr (by omega)) (intRange_nodup _ _) ?_ ?_ _
    · intro ch x' hx' hne
      refine foldl_read_const (r := fun ch : Chunk => ch.contents i0)
        (intRange 0 (SIZE - 1)) ?_ ch
      intro ch' z' hz'
      have hx'm := mem_intRange.mp hx'
      have hz'm := mem_intRange.mp hz'
      exact hskipcol x' z' hx'm.1 (by omega) hz'm.1 (by omega) (Or.inl hne) ch'
    · intro ch
      refine foldl_read_unique (b := z) (r := fun ch : Chunk => ch.contents i0)
        (intRange 0 (SIZE - 1)) (mem_intRange.mpr (by omega)) (intRange_nodup _ _) ?_
        hhitcol _
      intro ch' z' hz' hne
      have hz'm := mem_intRange.mp hz'
      exact hskipcol x z' hx.1 hx.2 hz'm.1 (by omega) (Or.inr hne) ch'
  · -- no column ever writes cell `i0`; it keeps its initial `None`
    rw [if_neg hw]
    have hall : ∀ (ch : Chunk) (x' : Int), x' ∈ intRange 0 (SIZE - 1) →
        ((intRange 0 (SIZE - 1)).foldl
          (fun ch z' => columnFill position noiseH x' z' ch) ch).contents i0
          = ch.contents i0 := by
      intro ch x' hx'
      refine foldl_read_const (r := fun ch : Chunk => ch.contents i0)
        (intRange 0 (SIZE - 1)) ?_ ch
      intro ch' z' hz'
      have hx'm := mem_intRange.mp hx'
      have hz'm := mem_intRange.mp hz'
      by_cases hc : x' = x ∧ z' = z
      · show (columnFill position noiseH x' z' ch').contents i0 = ch'.contents i0
        rw [columnFill_contents, if_neg]
        rintro ⟨hcond, y', hy'0, hy'1, hy'i⟩
        obtain ⟨-, hyy, -⟩ := to_index_inj ⟨hx'm.1, by omega⟩ ⟨hy'0, by omega⟩
          ⟨hz'm.1, by omega⟩ hx hy hz hy'i
        obtain ⟨hcx, hcz⟩ := hc
        subst hcx
        subst hcz
        rw [hyy] at hy'1
        exact hw ⟨hcond, hy'1⟩
      · refine hskipcol x' z' hx'm.1 (by omega) hz'm.1 (by omega) ?_ ch'
        rcases not_and_or.mp hc with h | h
        · exact Or.inl h
        · exact Or.inr h
    rw [Chunk.generate, foldl_read_const (r := fun ch : Chunk => ch.contents i0)
      (intRange 0 (SIZE - 1)) hall (Chunk.new position)]
    rfl

lemma generate_position (position : IVec3) (noiseH : Int → Int → Int) :
    (Chunk.generate position noiseH).position = position := by
  rw [Chunk.generate]
  rw [foldl_read_const (r := fun ch : Chunk => ch.position) (intRange 0 (SIZE - 1)) ?_
    (Chunk.new position)]
  · rfl
  · intro ch x _
    exact foldl_read_const (r := fun ch : Chunk => ch.position) (intRange 0 (SIZE - 1))
      (fun ch' z _ => columnFill_position position noiseH x z ch') ch

/-- C2, as stated, fails: with the chunk at coordinate `(0,-1,0)` and a noise
sample giving derived height `3 + 2 = 5`, the claim's fill bound
`min(height, CHUNK_SIZE-1) = 5` says local cell `(0, 6, 0)` is empty, but the
generated code fills the column up to
`min(height + |chunk_y|*CHUNK_SIZE, CHUNK_SIZE-1) = 31`, so the cell holds the
solid block. -/
theorem c2_counterexample :
    (Chunk.generate ⟨0, -1, 0⟩ (fun _ _ => 3)).contents (Chunk.to_index ⟨0, 6, 0⟩)
      = some (Block.new "stone") ∧
    ¬((6 : Int) ≤ min ((3 : Int) + 2) (32 - 1)) := by
  constructor
  · rw [generate_contents ⟨0, -1, 0⟩ (fun _ _ => 3) 0 6 0 (by omega) (by omega) (by omega)]
    rw [if_pos (by decide)]
  · omega

/-- C2 (amended): each generated column is derived from the noise sampled once
at the column's world coordinates `(chunk_x*32 + x, chunk_z*32 + z)`; writing
`height` for the derived integer height, a column with
`height < chunk_y * 32` (entirely below the chunk's y-range) is left entirely
empty, and otherwise the column is filled with the single solid block type
from local y = 0 up to local y = `min(height + |chunk_y|*32, 31)` (the
claim's bound `min(height, 31)` matches only for `chunk_y = 0`). -/
theorem c2_generate_column (position : IVec3) (noiseH : Int → Int → Int)
    (x y z : Int) (hx : 0 ≤ x ∧ x < 32) (hy : 0 ≤ y ∧ y < 32) (hz : 0 ≤ z ∧ z < 32) :
    (Chunk.generate position noiseH).position = position ∧
    (Chunk.generate position noiseH).contents (Chunk.to_index ⟨x, y, z⟩)
      = if position.y * 32 ≤ noiseH (position.x * 32 + x) (position.z * 32 + z) + 2 ∧
          y ≤ min (noiseH (position.x * 32 + x) (position.z * 32 + z) + 2
            + |position.y| * 32) 31
        then some (Block.new "stone") else none := by
  refine ⟨generate_position position noiseH, ?_⟩
  have h := generate_contents position noiseH x y z hx hy hz
  simpa [SIZE] using h

theorem c2_generate_column_witness :
    ((0 : Int) ≤ 0 ∧ (0 : Int) < 32) ∧
    (Chunk.generate ⟨0, 0, 0⟩ (fun _ _ => 3)).contents (Chunk.to_index ⟨0, 2, 0⟩)
      = some (Block.new "stone") ∧
    (Chunk.generate ⟨0, 0, 0⟩ (fun _ _ => 3)).contents (Chunk.to_index ⟨0, 9, 0⟩)
      = none := by
  obtain ⟨-, h2⟩ := c2_generate_column ⟨0, 0, 0⟩ (fun _ _ => 3) 0 2 0
    (by omega) (by omega) (by omega)
  obtain ⟨-, h9⟩ := c2_generate_column ⟨0, 0, 0⟩ (fun _ _ => 3) 0 9 0
    (by omega) (by omega) (by omega)
  refine ⟨by omega, ?_, ?_⟩
  · rw [h2, if_pos (by decide)]
  · rw [h9, if_neg (by decide)]

/-! ## Meshing (C1) -/

lemma foldl_preserve {C α : Type} {P : C → Prop} {step : C → α → C} :
    ∀ (l : List α), (∀ c a, P c → P (step c a)) → ∀ c, P c → P (l.foldl step c) := by
  intro l
  induction l with
  | nil => intro _ c hc; exact hc
  | cons hd t ih =>
    intro h c hc
    rw [List.foldl_cons]
    exact ih h _ (h c hd hc)

lemma emitFace_faces (st : MeshData) (cell : Nat) (x y z : ℚ) (d : Dir) (r : Rect) :
    (emitFace st cell x y z d r).faces = st.faces ++ [(cell, d)] := rfl

lemma emitFace_positions_length (st : MeshData) (cell : Nat) (x y z : ℚ) (d : Dir)
    (r : Rect) :
    (emitFace st cell x y z d r).positions.length = st.positions.length + 4 := by
  cases d <;> simp [emitFace, positionsFor]

lemma emitFace_indices_length (st : MeshData) (cell : Nat) (x y z : ℚ) (d : Dir)
    (r : Rect) :
    (emitFace st cell x y z d r).indices.length = st.indices.length + 6 := by
  cases d <;> simp [emitFace, indexPattern]

lemma dirs_foldl_faces (cond : Dir → Bool) (cell : Nat) (x y z : ℚ) (r : Rect) :
    ∀ (ds : List Dir) (st : MeshData),
      (ds.foldl (fun s d => if cond d then emitFace s cell x y z d r else s) st).faces
        = st.faces ++ (ds.filter cond).map (fun d => (cell, d)) := by
  intro ds
  induction ds with
  | nil => intro st; simp
  | cons hd t ih =>
    intro st
    rw [List.foldl_cons]
    by_cases hc : cond hd
    · rw [if_pos hc, ih, emitFace_faces, List.filter_cons_of_pos hc]
      simp
    · rw [if_neg hc, ih, List.filter_cons_of_neg hc]

lemma dirs_foldl_lengths (cond : Dir → Bool) (cell : Nat) (x y z : ℚ) (r : Rect) :
    ∀ (ds : List Dir) (st : MeshData),
      (ds.foldl (fun s d => if cond d then emitFace s cell x y z d r else s)
          st).positions.length
        = st.positions.length + 4 * (ds.filter cond).length ∧
      (ds.foldl (fun s d => if cond d then emitFace s cell x y z d r else s)
          st).indices.length
        = st.indices.length + 6 * (ds.filter cond).length := by
  intro ds
  induction ds with
  | nil => intro st; simp
  | cons hd t ih =>
    intro st
    rw [List.foldl_cons]
    by_cases hc : cond hd
    · rw [if_pos hc, List.filter_cons_of_pos hc]
      obtain ⟨hp, hi⟩ := ih (emitFace st cell x y z hd r)
      rw [hp, hi, emitFace_positions_length, emitFace_indices_length]
      constructor <;> (simp; ring)
    · rw [if_neg hc, List.filter_cons_of_neg hc]
      exact ih st

lemma emitDirs_faces (cond : Dir → Bool) (cell : Nat) (x y z : ℚ) (r : Rect)
    (st : MeshData) :
    (emitDirs cond cell x y z r st).faces
      = st.faces ++ (dirList.filter cond).map (fun d => (cell, d)) :=
  dirs_foldl_faces cond cell x y z r dirList st

lemma emitDirs_lengths (cond : Dir → Bool) (cell : Nat) (x y z : ℚ) (r : Rect)
    (st : MeshData) :
    (emitDirs cond cell x y z r st).positions.length
      = st.positions.length + 4 * (dirList.filter cond).length ∧
    (emitDirs cond cell x y z r st).indices.length
      = st.indices.length + 6 * (dirList.filter cond).length :=
  dirs_foldl_lengths cond cell x y z r dirList st

lemma meshCellGrid_faces (chunk_grid : ChunkGrid) (atlas : AtlasFn) (chunk : Chunk)
    (st : MeshData) (index : Nat) :
    (meshCellGrid chunk_grid atlas chunk st index).faces
      = st.faces ++ facesForCellGrid chunk_grid chunk index := by
  unfold meshCellGrid facesForCellGrid
  rcases hbc : BlockGrid.to_block_coordinates_from_index index with - | position
  · simp
  · dsimp only
    rcases hg : BlockGrid.get chunk.contents position with - | block
    · simp
    · dsimp only
      exact emitDirs_faces _ _ _ _ _ _ _

lemma meshCellGrid_lengths (chunk_grid : ChunkGrid) (atlas : AtlasFn) (chunk : Chunk)
    (st : MeshData) (index : Nat) :
    (meshCellGrid chunk_grid atlas chunk st index).positions.length
      = st.positions.length + 4 * (facesForCellGrid chunk_grid chunk index).length ∧
    (meshCellGrid chunk_grid atlas chunk st index).indices.length
      = st.indices.length + 6 * (facesForCellGrid chunk_grid chunk index).length := by
  unfold meshCellGrid facesForCellGrid
  rcases hbc : BlockGrid.to_block_coordinates_from_index index with - | position
  · simp
  · dsimp only
    rcases hg : BlockGrid.get chunk.contents position with - | block
    · simp
    · dsimp only
      have h := emitDirs_lengths (fun d =>
        (ChunkGrid.get_block chunk_grid
          (IVec3.add
            ⟨position.x + chunk.position.x * SIZE, position.y + chunk.position.y * SIZE,
             position.z + chunk.position.z * SIZE⟩ (dirOffset d))).isNone)
        index (position.x : ℚ) (position.y : ℚ) (position.z : ℚ) (atlas block) st
      rw [h.1, h.2]
      simp

lemma foldl_faces {step : MeshData → Nat → MeshData} {f : Nat → List (Nat × Dir)}
    (h : ∀ st i, (step st i).faces = st.faces ++ f i) :
    ∀ (l : List Nat) (st : MeshData),
      (l.foldl step st).faces = st.faces ++ (l.map f).flatten := by
  intro l
  induction l with
  | nil => intro st; simp
  | cons hd t ih =>
    intro st
    rw [List.foldl_cons, ih, h, List.map_cons, List.flatten_cons, List.append_assoc]

lemma rebuildMeshData_faces (chunk_grid : ChunkGrid) (atlas : AtlasFn) (chunk : Chunk) :
    (rebuildMeshData chunk_grid atlas chunk).faces
      = ((List.range CONTENTS_SIZE).map (facesForCellGrid chunk_grid chunk)).flatten := by
  unfold rebuildMeshData
  rw [foldl_faces (meshCellGrid_faces chunk_grid atlas chunk)]
  exact List.nil_append _

lemma rebuildMeshData_lengths (chunk_grid : ChunkGrid) (atlas : AtlasFn) (chunk : Chunk) :
    (rebuildMeshData chunk_grid atlas chunk).positions.length
      = 4 * (rebuildMeshData chunk_grid atlas chunk).faces.length ∧
    (rebuildMeshData chunk_grid atlas chunk).indices.length
      = 6 * (rebuildMeshData chunk_grid atlas chunk).faces.length := by
  unfold rebuildMeshData
  refine foldl_preserve (P := fun st : MeshData =>
    st.positions.length = 4 * st.faces.length ∧ st.indices.length = 6 * st.faces.length)
    (List.range CONTENTS_SIZE) ?_ MeshData.empty (by simp [MeshData.empty])
  intro st i hst
  obtain ⟨hp, hi⟩ := meshCellGrid_lengths chunk_grid atlas chunk st i
  have hf := meshCellGrid_faces chunk_grid atlas chunk st i
  rw [hp, hi, hf, List.length_append, hst.1, hst.2]
  constructor <;> ring

lemma facesForCellGrid_fst (chunk_grid : ChunkGrid) (chunk : Chunk) (j : Nat)
    (p : Nat × Dir) (hp : p ∈ facesForCellGrid chunk_grid chunk j) : p.1 = j := by
  unfold facesForCellGrid at hp
  split at hp
  · cases hp
  · split at hp
    · cases hp
    · obtain ⟨d, -, rfl⟩ := List.mem_map.mp hp
      rfl

lemma mem_rebuild_faces (chunk_grid : ChunkGrid) (atlas : AtlasFn) (chunk : Chunk)
    (i : Nat) (d : Dir) :
    ((i, d) ∈ (rebuildMeshData chunk_grid atlas chunk).faces)
      ↔ i < CONTENTS_SIZE ∧ (i, d) ∈ facesForCellGrid chunk_grid chunk i := by
  rw [rebuildMeshData_faces]
  constructor
  · intro h
    obtain ⟨l, hl, hmem⟩ := List.mem_flatten.mp h
    obtain ⟨j, hj, rfl⟩ := List.mem_map.mp hl
    have hj' := List.mem_range.mp hj
    have := facesForCellGrid_fst chunk_grid chunk j (i, d) hmem
    simp only at this
    subst this
    exact ⟨hj', hmem⟩
  · rintro ⟨hi, hmem⟩
    exact List.mem_flatten.mpr ⟨facesForCellGrid chunk_grid chunk i,
      List.mem_map.mpr ⟨i, List.mem_range.mpr hi, rfl⟩, hmem⟩

lemma from_index_eq {j : Nat} (hj : j ≤ 32767) :
    BlockGrid.to_block_coordinates_from_index j
      = some ⟨(j % 32 : Nat), (j / 32 % 32 : Nat), (j / (32 * 32) : Nat)⟩ := by
  unfold BlockGrid.to_block_coordinates_from_index
  rw [if_neg (by omega), if_neg (by omega)]

lemma from_index_none {j : Nat} (hj : 32767 < j) :
    BlockGrid.to_block_coordinates_from_index j = none := by
  unfold BlockGrid.to_block_coordinates_from_index
  rw [if_pos hj]

lemma get_from_index (contents : Contents) (j : Nat) (hj : j < CONTENTS_SIZE) :
    BlockGrid.get contents
      ⟨(j % 32 : Nat), (j / 32 % 32 : Nat), (j / (32 * 32) : Nat)⟩ = contents j := by
  simp only [CONTENTS_SIZE] at hj
  unfold BlockGrid.get
  rw [to_index_inRange (by dsimp only; omega) (by dsimp only; omega) (by dsimp only; omega)
    (by dsimp only; omega) (by dsimp only; omega) (by dsimp only; omega)]
  rw [Option.some_bind]
  congr 1
  dsimp only
  omega

lemma dir_mem_dirList (d : Dir) : d ∈ dirList := by
  cases d <;> simp [dirList]

lemma mem_facesForCellGrid (chunk_grid : ChunkGrid) (chunk : Chunk) (i : Nat) (d : Dir)
    (hi : i < CONTENTS_SIZE) :
    ((i, d) ∈ facesForCellGrid chunk_grid chunk i)
      ↔ chunk.contents i ≠ none ∧
        ChunkGrid.get_block chunk_grid
          (IVec3.add (blockWorldPosition chunk i) (dirOffset d)) = none := by
  have hj : i ≤ 32767 := by simp only [CONTENTS_SIZE] at hi; omega
  unfold facesForCellGrid blockWorldPosition
  rw [from_index_eq hj]
  dsimp only
  rw [get_from_index chunk.contents i hi]
  cases hc : chunk.contents i with
  | none => simp
  | some block =>
    simp only [ne_eq, reduceCtorEq, not_false_eq_true, true_and]
    constructor
    · intro h
      obtain ⟨d', hd', hdd⟩ := List.mem_map.mp h
      obtain ⟨-, hcond⟩ := List.mem_filter.mp hd'
      have : d' = d := by
        have := congrArg Prod.snd hdd
        simpa using this
      subst this
      rw [← Option.isNone_iff_eq_none]
      exact hcond
    · intro h
      refine List.mem_map.mpr ⟨d, List.mem_filter.mpr ⟨dir_mem_dirList d, ?_⟩, rfl⟩
      rw [Option.isNone_iff_eq_none]
      exact h

lemma facesOf_rebuild (chunk_grid : ChunkGrid) (atlas : AtlasFn) (chunk : Chunk) :
    facesOf (rebuild_chunk_mesh chunk_grid atlas chunk)
      = (rebuildMeshData chunk_grid atlas chunk).faces := by
  unfold rebuild_chunk_mesh
  split
  · rename_i hempty
    obtain ⟨-, hlen⟩ := rebuildMeshData_lengths chunk_grid atlas chunk
    rw [List.isEmpty_iff] at hempty
    rw [hempty] at hlen
    simp only [List.length_nil] at hlen
    have : (rebuildMeshData chunk_grid atlas chunk).faces = [] := by
      have := hlen.symm
      rcases hfaces : (rebuildMeshData chunk_grid atlas chunk).faces with - | ⟨p, t⟩
      · rfl
      · rw [hfaces] at hlen
        simp at hlen
    rw [this]
    rfl
  · rfl

/-- Combined membership characterisation for the grid mesher, shared by the C1
theorem and its witness. -/
lemma mem_facesOf_rebuild (chunk_grid : ChunkGrid) (atlas : AtlasFn) (chunk : Chunk)
    (i : Nat) (d : Dir) :
    ((i, d) ∈ facesOf (rebuild_chunk_mesh chunk_grid atlas chunk))
      ↔ i < CONTENTS_SIZE ∧ chunk.contents i ≠ none ∧
        ChunkGrid.get_block chunk_grid
          (IVec3.add (blockWorldPosition chunk i) (dirOffset d)) = none := by
  rw [facesOf_rebuild, mem_rebuild_faces]
  constructor
  · rintro ⟨hi, hmem⟩
    exact ⟨hi, (mem_facesForCellGrid chunk_grid chunk i d hi).mp hmem⟩
  · rintro ⟨hi, h⟩
    exact ⟨hi, (mem_facesForCellGrid chunk_grid chunk i d hi).mpr h⟩

lemma facesForCellGrid_nil (chunk_grid : ChunkGrid) (chunk : Chunk) (j : Nat)
    (hj : chunk.contents j = none) : facesForCellGrid chunk_grid chunk j = [] := by
  rcases le_or_lt j 32767 with h | h
  · unfold facesForCellGrid
    rw [from_index_eq h]
    dsimp only
    rw [get_from_index chunk.contents j (by simp only [CONTENTS_SIZE]; omega), hj]
  · unfold facesForCellGrid
    rw [from_index_none h]

lemma flatten_map_range_single {β : Type} (f : Nat → List β) :
    ∀ (n : Nat) (i0 : Nat), i0 < n → (∀ j, j < n → j ≠ i0 → f j = []) →
      ((List.range n).map f).flatten = f i0 := by
  intro n
  induction n with
  | zero => intro i0 h; omega
  | succ n ih =>
    intro i0 h0 hz
    rw [List.range_succ, List.map_append, List.flatten_append]
    rcases Nat.lt_or_ge i0 n with hlt | hge
    · rw [ih i0 hlt (fun j hj hne => hz j (by omega) hne)]
      simp [hz n (by omega) (by omega)]
    · have hi0 : i0 = n := by omega
      subst hi0
      have hnil : ((List.range i0).map f).flatten = [] := by
        rw [List.flatten_eq_nil_iff]
        intro l hl
        obtain ⟨j, hj, rfl⟩ := List.mem_map.mp hl
        exact hz j (by have := List.mem_range.mp hj; omega) (by have := List.mem_range.mp hj; omega)
      rw [hnil]
      simp

/-! The same face bookkeeping for the new revision's `build_mesh`. -/

lemma meshCellLocal_faces (chunk : Chunk) (atlas : AtlasFn) (st : MeshData) (index : Nat) :
    (meshCellLocal chunk atlas st index).faces
      = st.faces ++ facesForCellLocal chunk index := by
  unfold meshCellLocal facesForCellLocal
  rcases hc : chunk.contents index with - | block
  · simp
  · dsimp only
    exact emitDirs_faces _ _ _ _ _ _ _

lemma meshCellLocal_lengths (chunk : Chunk) (atlas : AtlasFn) (st : MeshData) (index : Nat) :
    (meshCellLocal chunk atlas st index).positions.length
      = st.positions.length + 4 * (facesForCellLocal chunk index).length ∧
    (meshCellLocal chunk atlas st index).indices.length
      = st.indices.length + 6 * (facesForCellLocal chunk index).length := by
  unfold meshCellLocal facesForCellLocal
  rcases hc : chunk.contents index with - | block
  · simp
  · dsimp only
    have h := emitDirs_lengths (localFaceCond chunk.contents index) index
      (((Chunk.to_block_coordinates_from_index index).getD ⟨0, 0, 0⟩).x : ℚ)
      (((Chunk.to_block_coordinates_from_index index).getD ⟨0, 0, 0⟩).y : ℚ)
      (((Chunk.to_block_coordinates_from_index index).getD ⟨0, 0, 0⟩).z : ℚ)
      (atlas block) st
    rw [h.1, h.2]
    simp

lemma buildMeshData_faces (chunk : Chunk) (atlas : AtlasFn) :
    (buildMeshData chunk atlas).faces
      = ((List.range CONTENTS_SIZE).map (facesForCellLocal chunk)).flatten := by
  unfold buildMeshData
  rw [foldl_faces (meshCellLocal_faces chunk atlas)]
  exact List.nil_append _

lemma buildMeshData_lengths (chunk : Chunk) (atlas : AtlasFn) :
    (buildMeshData chunk atlas).positions.length
      = 4 * (buildMeshData chunk atlas).faces.length ∧
    (buildMeshData chunk atlas).indices.length
      = 6 * (buildMeshData chunk atlas).faces.length := by
  unfold buildMeshData
  refine foldl_preserve (P := fun st : MeshData =>
    st.positions.length = 4 * st.faces.length ∧ st.indices.length = 6 * st.faces.length)
    (List.range CONTENTS_SIZE) ?_ MeshData.empty (by simp [MeshData.empty])
  intro st i hst
  obtain ⟨hp, hi⟩ := meshCellLocal_lengths chunk atlas st i
  have hf := meshCellLocal_faces chunk atlas st i
  rw [hp, hi, hf, List.length_append, hst.1, hst.2]
  constructor <;> ring

lemma facesOf_build (chunk : Chunk) (atlas : AtlasFn) :
    facesOf (build_mesh chunk atlas) = (buildMeshData chunk atlas).faces := by
  unfold build_mesh
  split
  · rename_i hempty
    obtain ⟨-, hlen⟩ := buildMeshData_lengths chunk atlas
    rw [List.isEmpty_iff] at hempty
    rw [hempty] at hlen
    simp only [List.length_nil] at hlen
    rcases hfaces : (buildMeshData chunk atlas).faces with - | ⟨p, t⟩
    · rfl
    · rw [hfaces] at hlen
      simp at hlen
  · rfl

lemma facesForCellLocal_nil (chunk : Chunk) (j : Nat) (hj : chunk.contents j = none) :
    facesForCellLocal chunk j = [] := by
  unfold facesForCellLocal
  rw [hj]

/-- C1, as stated, fails for the new revision's mesher `build_mesh`: the chunk
`chunkTop` holds a single solid block at local `(8, 31, 8)` (index 9192), all
six of its neighbours are empty or absent (the chunk above `chunkTop` is not
in the grid, so the cell above is absent), yet `build_mesh` emits only 5 quads
and no quad at all for the TOP face — its boundary test suppresses every face
on a chunk boundary instead of resolving the neighbour through the grid. -/
theorem c1_counterexample :
    chunkTop.contents idxTop ≠ none ∧
    ChunkGrid.get_block gridTop
      (IVec3.add (blockWorldPosition chunkTop idxTop) (dirOffset Dir.Top)) = none ∧
    (idxTop, Dir.Top) ∉ facesOf (build_mesh chunkTop atlasC) ∧
    (facesOf (build_mesh chunkTop atlasC)).length = 5 := by
  have hfaces : (buildMeshData chunkTop atlasC).faces
      = facesForCellLocal chunkTop idxTop := by
    rw [buildMeshData_faces]
    refine flatten_map_range_single _ CONTENTS_SIZE idxTop
      (by simp [idxTop, CONTENTS_SIZE]) ?_
    intro j hj hne
    refine facesForCellLocal_nil _ _ ?_
    simp only [chunkTop, idxTop] at *
    rw [if_neg hne]
  have hlist : facesForCellLocal chunkTop idxTop
      = [(idxTop, Dir.Bottom), (idxTop, Dir.Right), (idxTop, Dir.Left),
         (idxTop, Dir.Back), (idxTop, Dir.Front)] := by decide
  rw [facesOf_build, hfaces, hlist]
  refine ⟨by decide, by decide, by decide, rfl⟩

/-- C1 (amended, about the old revision's grid-based mesher
`rebuild_chunk_mesh`, the one whose adjacency is resolved by reading the
neighbouring chunk through the grid — the new revision's `build_mesh` never
emits chunk-boundary faces, see the counterexample):

1. a quad is recorded for `(cell, face)` iff the cell is solid and the
   adjacent cell in that direction, looked up through the grid at world
   coordinates, is empty or absent;
2. every produced mesh has exactly 4 vertices and 6 indices (2 triangles)
   per quad;
3. a single solid block whose 6 neighbours are all empty yields exactly
   6 quads, 24 vertices and 36 indices (12 triangles);
4. a single solid block fully surrounded by solid neighbours contributes
   zero faces. -/
theorem c1_mesher_face_culling :
    (∀ (chunk_grid : ChunkGrid) (atlas : AtlasFn) (chunk : Chunk) (i : Nat) (d : Dir),
      ((i, d) ∈ facesOf (rebuild_chunk_mesh chunk_grid atlas chunk))
        ↔ i < CONTENTS_SIZE ∧ chunk.contents i ≠ none ∧
          ChunkGrid.get_block chunk_grid
            (IVec3.add (blockWorldPosition chunk i) (dirOffset d)) = none) ∧
    (∀ (chunk_grid : ChunkGrid) (atlas : AtlasFn) (chunk : Chunk) (m : MeshData),
      rebuild_chunk_mesh chunk_grid atlas chunk = some m →
      m.positions.length = 4 * m.faces.length ∧ m.indices.length = 6 * m.faces.length) ∧
    (∃ m, rebuild_chunk_mesh gridA atlasC chunkA = some m ∧ m.faces.length = 6 ∧
      m.positions.length = 24 ∧ m.indices.length = 36) ∧
    (∀ d : Dir, (idxA, d) ∉ facesOf (rebuild_chunk_mesh gridB atlasC chunkB)) := by
  refine ⟨mem_facesOf_rebuild, ?_, ?_, ?_⟩
  · intro chunk_grid atlas chunk m hm
    unfold rebuild_chunk_mesh at hm
    split at hm
    · exact absurd hm (by simp)
    · have hm' := Option.some.inj hm
      subst hm'
      exact rebuildMeshData_lengths chunk_grid atlas chunk
  · have hfaces : (rebuildMeshData gridA atlasC chunkA).faces
        = facesForCellGrid gridA chunkA idxA := by
      rw [rebuildMeshData_faces]
      refine flatten_map_range_single _ CONTENTS_SIZE idxA
        (by simp [idxA, CONTENTS_SIZE]) ?_
      intro j hj hne
      refine facesForCellGrid_nil _ _ _ ?_
      simp only [chunkA, idxA] at *
      rw [if_neg hne]
    have hlist : facesForCellGrid gridA chunkA idxA
        = [(idxA, Dir.Top), (idxA, Dir.Bottom), (idxA, Dir.Right), (idxA, Dir.Left),
           (idxA, Dir.Back), (idxA, Dir.Front)] := by
      set_option maxRecDepth 8000 in decide
    obtain ⟨hp, hi⟩ := rebuildMeshData_lengths gridA atlasC chunkA
    have hflen : (rebuildMeshData gridA atlasC chunkA).faces.length = 6 := by
      rw [hfaces, hlist]
      rfl
    have hne : (rebuildMeshData gridA atlasC chunkA).indices.isEmpty = false := by
      rw [List.isEmpty_eq_false_iff_exists_mem]
      have : (rebuildMeshData gridA atlasC chunkA).indices.length = 36 := by
        rw [hi, hflen]
      rcases hind : (rebuildMeshData gridA atlasC chunkA).indices with - | ⟨a, t⟩
      · rw [hind] at this; simp at this
      · exact ⟨a, by simp [hind]⟩
    refine ⟨rebuildMeshData gridA atlasC chunkA, ?_, hflen, ?_, ?_⟩
    · unfold rebuild_chunk_mesh
      rw [hne]
      rfl
    · rw [hp, hflen]
    · rw [hi, hflen]
  · intro d hmem
    obtain ⟨-, -, hnone⟩ := (mem_facesOf_rebuild gridB atlasC chunkB idxA d).mp hmem
    cases d <;> exact absurd hnone (by decide)

theorem c1_mesher_face_culling_witness :
    (facesOf (rebuild_chunk_mesh gridA atlasC chunkA)).length = 6 ∧
    ((idxA, Dir.Top) ∈ facesOf (rebuild_chunk_mesh gridA atlasC chunkA)) := by
  obtain ⟨h1, h2, h3, h4⟩ := c1_mesher_face_culling
  obtain ⟨m, hm, h6, -, -⟩ := h3
  obtain ⟨-, -⟩ := h2 gridA atlasC chunkA m hm
  constructor
  · rw [hm]
    exact h6
  · rw [h1]
    refine ⟨by simp [idxA, CONTENTS_SIZE], by decide, by decide⟩

end VoxelGame
